import Mathlib

/-!
Shallow embedding of the document-acquisition and local-caching subsystem of
the repository (Go package rag): cache-key derivation, path validation,
content-type and size validation, cache freshness checking, metadata
serialization, directory scanning and the download orchestration, together
with theorems checking the specification's claims against the embedded code.
-/

/-! ## SHA-256 (crypto/sha256, used by hashURL and ComputeContentHash)

Machine words are Nat taken modulo 2^32; byte strings are List Nat with
entries below 256.  All recursion is structural so the kernel can evaluate
digests of concrete inputs.
-/

/-- Modulus for 32-bit words. -/
def w32 : Nat := 4294967296

/-- Addition modulo 2^32. -/
def add32 (a b : Nat) : Nat := (a + b) % w32

/-- Right rotation of a 32-bit word by n bits. -/
def rotr32 (n x : Nat) : Nat := ((x >>> n) ||| ((x % (2 ^ n)) <<< (32 - n))) % w32

/-- Bitwise complement of a 32-bit word. -/
def not32 (x : Nat) : Nat := x ^^^ 4294967295

/-- SHA-256 big sigma 0. -/
def sha256BigSigma0 (x : Nat) : Nat := rotr32 2 x ^^^ rotr32 13 x ^^^ rotr32 22 x

/-- SHA-256 big sigma 1. -/
def sha256BigSigma1 (x : Nat) : Nat := rotr32 6 x ^^^ rotr32 11 x ^^^ rotr32 25 x

/-- SHA-256 small sigma 0. -/
def sha256SmallSigma0 (x : Nat) : Nat := rotr32 7 x ^^^ rotr32 18 x ^^^ (x >>> 3)

/-- SHA-256 small sigma 1. -/
def sha256SmallSigma1 (x : Nat) : Nat := rotr32 17 x ^^^ rotr32 19 x ^^^ (x >>> 10)

/-- SHA-256 choice function. -/
def sha256Ch (e f g : Nat) : Nat := (e &&& f) ^^^ (not32 e &&& g)

/-- SHA-256 majority function. -/
def sha256Maj (a b c : Nat) : Nat := (a &&& b) ^^^ (a &&& c) ^^^ (b &&& c)

/-- The 64 SHA-256 round constants. -/
def sha256K : List Nat :=
  [1116352408, 1899447441, 3049323471, 3921009573, 961987163, 1508970993,
   2453635748, 2870763221, 3624381080, 310598401, 607225278, 1426881987,
   1925078388, 2162078206, 2614888103, 3248222580, 3835390401, 4022224774,
   264347078, 604807628, 770255983, 1249150122, 1555081692, 1996064986,
   2554220882, 2821834349, 2952996808, 3210313671, 3336571891, 3584528711,
   113926993, 338241895, 666307205, 773529912, 1294757372, 1396182291,
   1695183700, 1986661051, 2177026350, 2456956037, 2730485921, 2820302411,
   3259730800, 3345764771, 3516065817, 3600352804, 4094571909, 275423344,
   430227734, 506948616, 659060556, 883997877, 958139571, 1322822218,
   1537002063, 1747873779, 1955562222, 2024104815, 2227730452, 2361852424,
   2428436474, 2756734187, 3204031479, 3329325298]

/-- Working state of the SHA-256 compression function: eight 32-bit words. -/
structure Sha256State where
  a : Nat
  b : Nat
  c : Nat
  d : Nat
  e : Nat
  f : Nat
  g : Nat
  h : Nat

/-- One round of the SHA-256 compression function. -/
def sha256Round (st : Sha256State) (w k : Nat) : Sha256State :=
  let t1 := add32 st.h (add32 (sha256BigSigma1 st.e) (add32 (sha256Ch st.e st.f st.g) (add32 k w)))
  let t2 := add32 (sha256BigSigma0 st.a) (sha256Maj st.a st.b st.c)
  ⟨add32 t1 t2, st.a, st.b, st.c, add32 st.d t1, st.e, st.f, st.g⟩

/-- Sixty-four rounds, consuming the message schedule and round constants in step. -/
def sha256Rounds : Sha256State → List Nat → List Nat → Sha256State
  | st, w :: ws, k :: ks => sha256Rounds (sha256Round st w k) ws ks
  | st, _, _ => st

/-- Next message-schedule word, given the previous words most recent first. -/
def sha256ExtendStep (ws : List Nat) : Nat :=
  add32 (sha256SmallSigma1 (ws.getD 1 0))
    (add32 (ws.getD 6 0) (add32 (sha256SmallSigma0 (ws.getD 14 0)) (ws.getD 15 0)))

/-- Extend the message schedule by the given number of words (list is most recent first). -/
def sha256ExtendAux : Nat → List Nat → List Nat
  | 0, ws => ws
  | n + 1, ws => sha256ExtendAux n (sha256ExtendStep ws :: ws)

/-- Full 64-word message schedule from the 16 words of one block. -/
def sha256Schedule (blk : List Nat) : List Nat :=
  (sha256ExtendAux 48 blk.reverse).reverse

/-- Group bytes into 32-bit big-endian words. -/
def bytesToWordsBE : List Nat → List Nat
  | b0 :: b1 :: b2 :: b3 :: rest => (((b0 * 256 + b1) * 256 + b2) * 256 + b3) :: bytesToWordsBE rest
  | _ => []

/-- Big-endian byte expansion of a number into the given number of bytes. -/
def toBytesBE : Nat → Nat → List Nat
  | 0, _ => []
  | n + 1, x => toBytesBE n (x / 256) ++ [x % 256]

/-- Compression of one 64-byte block into the running state. -/
def sha256Compress (st : Sha256State) (blk : List Nat) : Sha256State :=
  let r := sha256Rounds st (sha256Schedule (bytesToWordsBE blk)) sha256K
  ⟨add32 st.a r.a, add32 st.b r.b, add32 st.c r.c, add32 st.d r.d,
   add32 st.e r.e, add32 st.f r.f, add32 st.g r.g, add32 st.h r.h⟩

/-- Concatenation of a list of lists. -/
def listJoin : List (List α) → List α
  | [] => []
  | l :: ls => l ++ listJoin ls

/-- SHA-256 padding: a 0x80 byte, zeros to 56 mod 64, and the 64-bit bit length. -/
def sha256Pad (msg : List Nat) : List Nat :=
  msg ++ [128] ++ List.replicate ((120 - (msg.length + 1) % 64) % 64) 0
    ++ toBytesBE 8 (8 * msg.length)

/-- Split a byte string into 64-byte blocks (fuel-indexed to stay structural). -/
def chunk64Fuel : Nat → List Nat → List (List Nat)
  | 0, _ => []
  | _, [] => []
  | fuel + 1, b :: bs => ((b :: bs).take 64) :: chunk64Fuel fuel ((b :: bs).drop 64)

/-- Split a byte string into 64-byte blocks. -/
def chunk64 (l : List Nat) : List (List Nat) := chunk64Fuel l.length l

/-- Initial SHA-256 hash value. -/
def sha256InitState : Sha256State :=
  ⟨1779033703, 3144134277, 1013904242, 2773480762,
   1359893119, 2600822924, 528734635, 1541459225⟩

/-- Fold the compression function over the blocks. -/
def sha256Blocks : Sha256State → List (List Nat) → Sha256State
  | st, [] => st
  | st, b :: bs => sha256Blocks (sha256Compress st b) bs

/-- SHA-256 digest (32 bytes) of a byte string. -/
def sha256 (msg : List Nat) : List Nat :=
  let st := sha256Blocks sha256InitState (chunk64 (sha256Pad msg))
  toBytesBE 4 st.a ++ toBytesBE 4 st.b ++ toBytesBE 4 st.c ++ toBytesBE 4 st.d ++
  toBytesBE 4 st.e ++ toBytesBE 4 st.f ++ toBytesBE 4 st.g ++ toBytesBE 4 st.h

/-! ## Byte and hex encodings (encoding/hex, UTF-8 string bytes) -/

/-- UTF-8 encoding of a single character. -/
def utf8Bytes (c : Char) : List Nat :=
  let n := c.toNat
  if n < 128 then [n]
  else if n < 2048 then [192 ||| (n >>> 6), 128 ||| (n &&& 63)]
  else if n < 65536 then
    [224 ||| (n >>> 12), 128 ||| ((n >>> 6) &&& 63), 128 ||| (n &&& 63)]
  else
    [240 ||| (n >>> 18), 128 ||| ((n >>> 12) &&& 63), 128 ||| ((n >>> 6) &&& 63), 128 ||| (n &&& 63)]

/-- UTF-8 bytes of a string, as Go obtains when converting a string to bytes. -/
def strBytes (s : String) : List Nat := listJoin (s.data.map utf8Bytes)

/-- The lowercase hexadecimal digits, in order. -/
def hexDigits : List Char := "0123456789abcdef".data

/-- Lowercase hex digit for a nibble. -/
def hexChar (n : Nat) : Char := hexDigits.getD (n % 16) '0'

/-- Lowercase hex encoding of a byte string (hex.EncodeToString). -/
def hexEncode (bs : List Nat) : String :=
  ⟨listJoin (bs.map (fun b => [hexChar (b / 16), hexChar b]))⟩

/-! ## Cache key derivation (hashURL, cache.go) -/

/-- Embedding of hashURL: the SHA-256 hash of a URL, lowercase hex encoded,
used as the cache key. -/
def hashURL (url : String) : String := hexEncode (sha256 (strBytes url))

/-! ## Go string helpers (strings package, ASCII fragment used by the code) -/

/-- Whether a character is ASCII whitespace as trimmed by strings.TrimSpace. -/
def isSpaceChar (c : Char) : Bool :=
  c == ' ' || c == '\t' || c == '\n' || c == '\r' || c == Char.ofNat 11 || c == Char.ofNat 12

/-- Embedding of strings.TrimSpace (ASCII whitespace). -/
def trimSpace (s : String) : String :=
  ⟨((s.data.dropWhile isSpaceChar).reverse.dropWhile isSpaceChar).reverse⟩

/-- ASCII lower-casing of one character, as strings.ToLower acts on ASCII. -/
def lowerChar (c : Char) : Char :=
  if 'A' ≤ c && c ≤ 'Z' then Char.ofNat (c.toNat + 32) else c

/-- Embedding of strings.ToLower on the ASCII fragment. -/
def strToLower (s : String) : String := ⟨s.data.map lowerChar⟩

/-- The first piece of strings.Split(s, ";"): everything before the first
semicolon, or the whole string when there is none. -/
def splitSemiFirst (s : String) : String := ⟨s.data.takeWhile (fun c => c != ';')⟩

/-- Whether one character list starts with another (strings.HasPrefix). -/
def strStartsWithL : List Char → List Char → Bool
  | _, [] => true
  | [], _ :: _ => false
  | a :: as, b :: bs => a == b && strStartsWithL as bs

/-- Embedding of strings.HasPrefix. -/
def strStartsWith (s p : String) : Bool := strStartsWithL s.data p.data

/-- Whether a character list contains another as a contiguous sublist. -/
def strContainsSubL (sub : List Char) : List Char → Bool
  | [] => strStartsWithL [] sub
  | a :: as => strStartsWithL (a :: as) sub || strContainsSubL sub as

/-- Embedding of strings.Contains. -/
def strContains (s sub : String) : Bool := strContainsSubL sub.data s.data

/-! ## Content-type validation (isTextContentType, downloader.go) -/

/-- The allow-list of text content types from isTextContentType, in source order. -/
def textTypes : List String :=
  ["text/", "application/json", "application/xml", "application/javascript",
   "application/x-yaml", "application/yaml"]

/-- Embedding of isTextContentType: strip parameters at the first semicolon,
trim and lower-case, then test the allow-list entries with strings.HasPrefix. -/
def isTextContentType (contentType : String) : Bool :=
  let ct := strToLower (trimSpace (splitSemiFirst contentType))
  textTypes.any (fun t => strStartsWith ct t)

/-- Modelled from the specification words of the isTextLike claim: the
normalized type is accepted exactly when it is under text/* or is one of the
listed application types (exact membership); used only to compare the
specification reading with the code. -/
def isTextLikeSpec (contentType : String) : Bool :=
  let ct := strToLower (trimSpace (splitSemiFirst contentType))
  strStartsWith ct "text/" ||
    ["application/json", "application/xml", "application/javascript",
     "application/x-yaml", "application/yaml"].contains ct

/-! ## Error taxonomy (errors.go), with fmt.Errorf wrapping -/

/-- Embedding of the error values of package rag.  The generic constructor
stands for an error built with fmt.Errorf without a typed error inside; wrap
stands for fmt.Errorf with a %w verb around an inner error. -/
inductive RagError where
  | invalidURL (s : String)
  | invalidPath (s : String)
  | downloadFailed (url reason : String)
  | cacheError (operation reason : String)
  | invalidConfig (s : String)
  | fileTooLarge (size maxSize : Int)
  | notTextFile (s : String)
  | pathTraversal (s : String)
  | generic (msg : String)
  | wrap (msg : String) (inner : RagError)
deriving DecidableEq

/-- The distinguishable kinds of errors, as a caller using errors.As sees
them: one kind per typed error, and one for untyped fmt.Errorf errors. -/
inductive ErrKind where
  | invalidURL
  | invalidPath
  | downloadFailed
  | cacheError
  | invalidConfig
  | fileTooLarge
  | notTextFile
  | pathTraversal
  | generic
deriving DecidableEq

/-- Kind of an error value, looking through fmt.Errorf %w wrapping the way
errors.As does. -/
def errKind : RagError → ErrKind
  | .invalidURL _ => .invalidURL
  | .invalidPath _ => .invalidPath
  | .downloadFailed _ _ => .downloadFailed
  | .cacheError _ _ => .cacheError
  | .invalidConfig _ => .invalidConfig
  | .fileTooLarge _ _ => .fileTooLarge
  | .notTextFile _ => .notTextFile
  | .pathTraversal _ => .pathTraversal
  | .generic _ => .generic
  | .wrap _ inner => errKind inner

/-! ## Lexical path cleaning (path/filepath, Unix rules) and ValidatePath -/

/-- Split a character list at slashes. -/
def splitSlashAux : List Char → List Char → List (List Char)
  | cur, [] => [cur.reverse]
  | cur, '/' :: rest => cur.reverse :: splitSlashAux [] rest
  | cur, c :: rest => splitSlashAux (c :: cur) rest

/-- Stack-based processing of path elements for filepath.Clean: dot-dot pops
a preceding element, cannot escape the root of a rooted path, and is kept
when nothing precedes it in a relative path.  The accumulator holds the
output elements in reverse. -/
def cleanStack : List (List Char) → Bool → List (List Char) → List (List Char)
  | acc, _, [] => acc
  | acc, rooted, seg :: rest =>
    if seg == ['.', '.'] then
      match acc with
      | [] => cleanStack (if rooted then [] else [seg]) rooted rest
      | top :: accRest =>
        if top == ['.', '.'] then cleanStack (seg :: acc) rooted rest
        else cleanStack accRest rooted rest
    else cleanStack (seg :: acc) rooted rest

/-- Join path elements with slashes. -/
def joinSegs : List (List Char) → List Char
  | [] => []
  | [s] => s
  | s :: rest => s ++ '/' :: joinSegs rest

/-- Embedding of filepath.Clean for Unix separators: collapse repeated
slashes, drop single dots, resolve dot-dots lexically, return a single dot
for an empty result. -/
def filepathClean (path : String) : String :=
  if path == "" then "."
  else
    let rooted := path.data.head? == some '/'
    let segs := (splitSlashAux [] path.data).filter
      (fun seg => !(seg == []) && !(seg == ['.']))
    let out := (cleanStack [] rooted segs).reverse
    if out == [] then (if rooted then "/" else ".")
    else ⟨(if rooted then ['/'] else []) ++ joinSegs out⟩

/-- Embedding of ValidatePath: reject any path containing dot-dot, checked on
the raw input and again on the lexically cleaned path. -/
def ValidatePath (path : String) : Except RagError Unit :=
  if strContains path ".." then .error (.pathTraversal path)
  else if strContains (filepathClean path) ".." then .error (.pathTraversal path)
  else .ok ()

/-! ## Cache paths (cache.go) -/

/-- Extension of cached document files. -/
def documentExt : String := ".txt"

/-- Extension of cached metadata files. -/
def metadataExt : String := ".meta.json"

/-- Embedding of filepath.Join: join the non-empty elements with slashes and
clean the result. -/
def filepathJoin (elems : List String) : String :=
  let ne := elems.filter (fun e => !(e == ""))
  if ne == [] then "" else filepathClean (String.intercalate "/" ne)

/-- Embedding of filepath.Dir: everything up to the final slash, cleaned. -/
def filepathDir (path : String) : String :=
  filepathClean ⟨(path.data.reverse.dropWhile (fun c => c != '/')).reverse⟩

/-- Embedding of GetCachedDocumentPath. -/
def GetCachedDocumentPath (cacheDir url : String) : String :=
  filepathJoin [cacheDir, "documents", hashURL url ++ documentExt]

/-- Embedding of GetCachedMetadataPath. -/
def GetCachedMetadataPath (cacheDir url : String) : String :=
  filepathJoin [cacheDir, "documents", hashURL url ++ metadataExt]

/-- Embedding of ComputeContentHash: lowercase hex SHA-256 of content bytes. -/
def ComputeContentHash (content : List Nat) : String := hexEncode (sha256 content)

/-! ## Cache metadata and its JSON serialization (types.go, cache.go)

File input and output is abstracted to the JSON value written to or read
from the metadata path; the RFC3339 serialization of time.Time is carried
as a string.
-/

/-- Embedding of the CacheMetadata struct.  The downloadedAt field carries
the RFC3339 serialization of the time.Time value. -/
structure CacheMetadata where
  url : String
  downloadedAt : String
  contentHash : String
  etag : String
  lastModified : String
  contentType : String
  size : Int
deriving DecidableEq

/-- JSON values, as far as the metadata serialization needs them. -/
inductive Json where
  | str (s : String)
  | num (n : Int)
  | obj (fields : List (String × Json))

/-- Lookup of an object key, first occurrence. -/
def jsonLookup : List (String × Json) → String → Option Json
  | [], _ => none
  | (k, v) :: rest, key => if k == key then some v else jsonLookup rest key

/-- Decoding of a string field the way encoding/json fills a struct string
field: a missing key leaves the zero value, a non-string value is an error. -/
def getStrField (fs : List (String × Json)) (k : String) : Option String :=
  match jsonLookup fs k with
  | none => some ""
  | some (.str s) => some s
  | some _ => none

/-- Decoding of an integer field the way encoding/json fills an int64 field. -/
def getNumField (fs : List (String × Json)) (k : String) : Option Int :=
  match jsonLookup fs k with
  | none => some 0
  | some (.num n) => some n
  | some _ => none

/-- Embedding of json.Marshal on CacheMetadata, with the struct tags of
types.go: field order of the struct, omitempty on etag and last_modified. -/
def metaToJson (m : CacheMetadata) : Json :=
  .obj ([("url", Json.str m.url), ("downloaded_at", Json.str m.downloadedAt),
         ("content_hash", Json.str m.contentHash)]
    ++ (if m.etag == "" then [] else [("etag", Json.str m.etag)])
    ++ (if m.lastModified == "" then [] else [("last_modified", Json.str m.lastModified)])
    ++ [("content_type", Json.str m.contentType), ("size", Json.num m.size)])

/-- Embedding of json.Unmarshal into CacheMetadata. -/
def metaFromJson : Json → Option CacheMetadata
  | .obj fs => do
      let url ← getStrField fs "url"
      let downloadedAt ← getStrField fs "downloaded_at"
      let contentHash ← getStrField fs "content_hash"
      let etag ← getStrField fs "etag"
      let lastModified ← getStrField fs "last_modified"
      let contentType ← getStrField fs "content_type"
      let size ← getNumField fs "size"
      some ⟨url, downloadedAt, contentHash, etag, lastModified, contentType, size⟩
  | _ => none

/-- Embedding of SaveMetadata, at the level of the JSON value written to the
metadata path: serialize the entry. -/
def SaveMetadata (m : CacheMetadata) : Json := metaToJson m

/-- Embedding of LoadMetadata, at the level of the JSON value read from the
metadata path: parse the entry; none for a missing or unparsable file. -/
def LoadMetadata : Option Json → Option CacheMetadata
  | none => none
  | some j => metaFromJson j

/-! ## Cache freshness (ValidateCache, checkCacheFreshness, downloader.go) -/

/-- Outcome of the conditional HEAD request as checkCacheFreshness sees it:
either the transport failed with no server response, or a server response
with a status code arrived. -/
inductive HeadOutcome where
  | transportFailure (msg : String)
  | response (status : Nat)
deriving DecidableEq

/-- Embedding of checkCacheFreshness, applied to the request outcome: a
failed HEAD request means the cache is assumed valid, 304 means valid, any
other server status means stale. -/
def checkCacheFreshness (outcome : HeadOutcome) : Bool :=
  match outcome with
  | .transportFailure _ => true
  | .response status => status == 304

/-- Conditional headers set by checkCacheFreshness on the HEAD request:
If-None-Match when an ETag is stored, If-Modified-Since when a Last-Modified
value is stored. -/
def condRequestHeaders (meta : CacheMetadata) : List (String × String) :=
  (if meta.etag == "" then [] else [("If-None-Match", meta.etag)])
    ++ (if meta.lastModified == "" then [] else [("If-Modified-Since", meta.lastModified)])

/-- Embedding of ValidateCache given the loaded metadata: without stored
validators the cache is declared valid directly; otherwise the answer is
checkCacheFreshness on the HEAD outcome.  The second component records
whether a network request was issued. -/
def ValidateCache (meta : CacheMetadata) (outcome : HeadOutcome) : Bool × Bool :=
  if meta.etag == "" && meta.lastModified == "" then (true, false)
  else (checkCacheFreshness outcome, true)

/-! ## Fetch with validation (downloadWithValidation, downloader.go) -/

/-- Outcome of the GET request as downloadWithValidation sees it: transport
error, or a server response with status, Content-Type header, declared
Content-Length (negative when absent), validator headers and body bytes. -/
inductive FetchOutcome where
  | transportError (msg : String)
  | response (status : Nat) (contentType : String) (contentLength : Int)
      (etag lastModified : String) (body : List Nat)
deriving DecidableEq

/-- Embedding of downloadWithValidation: check status 200, content type,
declared Content-Length against MaxSize, read at most MaxSize+1 bytes
through io.LimitReader, and recheck the bytes actually read.  The now
argument is the clock value used for the DownloadedAt field.  The second
component of the result is the number of body bytes read from the network. -/
def downloadWithValidation (maxSize : Int) (urlStr now : String)
    (outcome : FetchOutcome) : Except RagError (List Nat × CacheMetadata) × Nat :=
  match outcome with
  | .transportError msg => (.error (.downloadFailed urlStr msg), 0)
  | .response status contentType contentLength etag lastModified body =>
    if status != 200 then
      (.error (.downloadFailed urlStr ("HTTP " ++ toString status)), 0)
    else if !(isTextContentType contentType) then
      (.error (.notTextFile ("content type: " ++ contentType)), 0)
    else if contentLength > maxSize then
      (.error (.fileTooLarge contentLength maxSize), 0)
    else
      let content := body.take (maxSize + 1).toNat
      if (content.length : Int) > maxSize then
        (.error (.fileTooLarge content.length maxSize), content.length)
      else
        (.ok (content,
          ⟨urlStr, now, ComputeContentHash content, etag, lastModified,
           contentType, content.length⟩), content.length)

/-! ## Download orchestration (Download, GetCachedPath, downloader.go)

The I/O boundary is made explicit: an environment carries the outcomes the
filesystem, clock and network produce, and the result is paired with the
trace of externally visible actions in the order the code performs them.
-/

/-- Externally visible actions of a Download call, in program order. -/
inductive Event where
  | headRequest (headers : List (String × String))
  | getRequest (url : String)
  | mkdirAll (dir : String)
  | writeDoc (path : String) (content : List Nat)
  | writeMeta (path : String) (meta : CacheMetadata)
  | removeFile (path : String)
deriving DecidableEq

/-- Environment of one Download call: configuration plus the outcomes the
world returns at each I/O point. -/
structure DownloadEnv where
  cacheDir : String
  forceRefresh : Bool
  maxSize : Int
  urlOk : Bool
  cachedExists : Bool
  storedMeta : Option CacheMetadata
  headOutcome : HeadOutcome
  fetchOutcome : FetchOutcome
  now : String
  mkdirOk : Bool
  writeDocOk : Bool
  writeMetaOk : Bool

/-- Requests issued by the cache-validation step of Download: none when the
cache misses, force-refresh is on, metadata fails to load, or no validators
are stored; one conditional HEAD request otherwise. -/
def validationEvents (env : DownloadEnv) : List Event :=
  if env.cachedExists && !env.forceRefresh then
    match env.storedMeta with
    | none => []
    | some m =>
      if m.etag == "" && m.lastModified == "" then []
      else [.headRequest (condRequestHeaders m)]
  else []

/-- Whether Download takes the cached-document fast path: a cached file
exists, no force-refresh, metadata loads, and ValidateCache answers valid. -/
def cacheIsValid (env : DownloadEnv) : Bool :=
  env.cachedExists && !env.forceRefresh &&
    (match env.storedMeta with
     | none => false
     | some m => (ValidateCache m env.headOutcome).1)

/-- Embedding of Download: validate the URL, try the cache, otherwise fetch
with validation, create the cache directory, write the content file, then
write the metadata file; a metadata-write failure is only logged. -/
def Download (env : DownloadEnv) (urlStr : String) : Except RagError String × List Event :=
  if !env.urlOk then (.error (.wrap "invalid URL" (.invalidURL urlStr)), [])
  else
    let docPath := GetCachedDocumentPath env.cacheDir urlStr
    let metaPath := GetCachedMetadataPath env.cacheDir urlStr
    let evs := validationEvents env
    if cacheIsValid env then (.ok docPath, evs)
    else
      let fetched := downloadWithValidation env.maxSize urlStr env.now env.fetchOutcome
      let evs := evs ++ [.getRequest urlStr]
      match fetched.1 with
      | .error e => (.error (.wrap "download failed" e), evs)
      | .ok (content, meta) =>
        if !env.mkdirOk then
          (.error (.generic "failed to create cache directory"),
           evs ++ [.mkdirAll (filepathDir docPath)])
        else if !env.writeDocOk then
          (.error (.generic "failed to write document to cache"),
           evs ++ [.mkdirAll (filepathDir docPath), .writeDoc docPath content])
        else
          (.ok docPath,
           evs ++ [.mkdirAll (filepathDir docPath), .writeDoc docPath content,
                   .writeMeta metaPath meta])

/-! ## Directory scanning (ScanDirectory, IsTextFile, scanner.go)

The filesystem under the scan root is a finite tree; filepath.Walk visits a
directory node and then its children in order, and a SkipDir answer from
the walk function prevents descending.
-/

/-- The extension allow-list of IsTextFile, in source order. -/
def textExtensions : List String :=
  [".txt", ".md", ".markdown",
   ".json", ".yaml", ".yml",
   ".xml", ".html", ".htm",
   ".csv", ".tsv",
   ".log",
   ".rst", ".adoc", ".asciidoc",
   ".tex", ".latex",
   ".org",
   ".conf", ".config", ".cfg",
   ".ini", ".toml",
   ".sh", ".bash", ".zsh",
   ".py", ".js", ".ts", ".go", ".java", ".c", ".cpp", ".h", ".hpp",
   ".rb", ".php", ".pl", ".lua", ".r",
   ".css", ".scss", ".sass", ".less",
   ".sql"]

/-- Collect the extension from the reversed character list of a path:
everything from the final dot of the final slash-separated element. -/
def filepathExtAux : List Char → List Char → List Char
  | _, [] => []
  | acc, '.' :: _ => '.' :: acc
  | _, '/' :: _ => []
  | acc, c :: rest => filepathExtAux (c :: acc) rest

/-- Embedding of filepath.Ext. -/
def filepathExt (path : String) : String := ⟨filepathExtAux [] path.data.reverse⟩

/-- Embedding of IsTextFile: lower-cased extension against the allow-list. -/
def IsTextFile (path : String) : Bool :=
  textExtensions.contains (strToLower (filepathExt path))

mutual

/-- A filesystem node under the scan root: a file or a directory. -/
inductive FsNode where
  | file (name : String)
  | dir (name : String) (children : FsForest)

/-- Directory contents, in the lexical order filepath.Walk visits them. -/
inductive FsForest where
  | nil
  | cons (hd : FsNode) (tl : FsForest)

end

/-- Name of a node. -/
def nodeName : FsNode → String
  | .file n => n
  | .dir n _ => n

mutual

/-- Embedding of the walk function of ScanDirectory on one node at its full
path: a non-root directory is skipped when the scan is not recursive, hidden
file names are skipped, remaining files are kept when IsTextFile accepts
them. -/
def walkNode (recursive : Bool) (absRoot : String) (path : String) : FsNode → List String
  | .file name =>
    if strStartsWith name "." then []
    else if IsTextFile path then [path] else []
  | .dir _ children =>
    if path != absRoot && !recursive then []
    else walkForest recursive absRoot path children

/-- Walk of the children of a directory at the given path. -/
def walkForest (recursive : Bool) (absRoot : String) (path : String) : FsForest → List String
  | .nil => []
  | .cons c cs =>
    walkNode recursive absRoot (path ++ "/" ++ nodeName c) c
      ++ walkForest recursive absRoot path cs

end

/-- Embedding of ScanDirectory given the resolved absolute root path and the
tree rooted there: validate the path, require a directory, then walk. -/
def ScanDirectory (dirPath absRoot : String) (root : FsNode) (recursive : Bool) :
    Except RagError (List String) :=
  match ValidatePath dirPath with
  | .error e => .error (.wrap "invalid directory path" e)
  | .ok _ =>
    match root with
    | .file _ => .error (.invalidPath (absRoot ++ " is not a directory"))
    | .dir _ _ => .ok (walkNode recursive absRoot absRoot root)

mutual

/-- Paths of the files of a tree whose own names are not hidden, whatever
the scan options: the largest result any walk can return. -/
def visibleFiles (path : String) : FsNode → List String
  | .file name => if strStartsWith name "." then [] else [path]
  | .dir _ children => visibleFilesForest path children

/-- Forest version of visibleFiles. -/
def visibleFilesForest (path : String) : FsForest → List String
  | .nil => []
  | .cons c cs =>
    visibleFiles (path ++ "/" ++ nodeName c) c ++ visibleFilesForest path cs

end

/-- Files directly under the root passing the hidden-name and extension
filters: what a non-recursive scan keeps. -/
def rootOnlyFiles (root : String) : FsForest → List String
  | .nil => []
  | .cons (.file name) cs =>
    (if strStartsWith name "." then []
     else if IsTextFile (root ++ "/" ++ name) then [root ++ "/" ++ name] else [])
      ++ rootOnlyFiles root cs
  | .cons (.dir _ _) cs => rootOnlyFiles root cs

/-- Sanity check of the SHA-256 embedding against the FIPS 180-4 test vector
for the empty message. -/
theorem sha256_empty_vector :
    hexEncode (sha256 []) =
      "e3b0c44298fc1c149afbf4c8996fb92427ae41e4649b934ca495991b7852b855" := by
  decide

/-- Sanity check of the SHA-256 embedding against the FIPS 180-4 test vector
for the three-byte message abc. -/
theorem sha256_abc_vector :
    hashURL "abc" =
      "ba7816bf8f01cfea414140de5dae2223b00361a396177a9cb410ff61f20015ad" := by
  decide

/-! ## Helper lemmas about the encodings -/

/-- Big-endian expansion into n bytes has length n. -/
theorem toBytesBE_length (n x : Nat) : (toBytesBE n x).length = n := by
  induction n generalizing x with
  | zero => rfl
  | succ n ih => simp [toBytesBE, ih]

/-- A SHA-256 digest has 32 bytes. -/
theorem sha256_length (msg : List Nat) : (sha256 msg).length = 32 := by
  simp [sha256, toBytesBE_length]

/-- Hex encoding yields two characters per byte. -/
theorem hexEncode_length (bs : List Nat) : (hexEncode bs).length = 2 * bs.length := by
  show (listJoin (bs.map _)).length = 2 * bs.length
  induction bs with
  | nil => rfl
  | cons b bs ih => simp [listJoin, ih]; omega

/-- Every character hexChar produces is a lowercase hex digit. -/
theorem hexChar_mem (n : Nat) : hexChar n ∈ hexDigits := by
  have h : n % 16 < 16 := Nat.mod_lt _ (by norm_num)
  unfold hexChar
  set m := n % 16 with hm
  interval_cases m <;> decide

/-- Every character of a hex encoding is a lowercase hex digit. -/
theorem hexEncode_all_hex (bs : List Nat) :
    ((hexEncode bs).data.all (fun c => hexDigits.contains c)) = true := by
  show (listJoin (bs.map _)).all _ = true
  induction bs with
  | nil => rfl
  | cons b bs ih =>
    simp only [List.map_cons, listJoin, List.all_append, Bool.and_eq_true]
    refine ⟨?_, ih⟩
    simp [hexChar_mem]

/-! ## Claim C1: cache key derivation -/

/-- C1: the derived cache key is the lowercase hex SHA-256 digest of the
exact locator string: 64 characters, all lowercase hex digits, computed as a
pure function of the string with no normalization, so a trailing slash or a
reordered query yields a different key. -/
theorem C1_cache_key_is_sha256_hex :
    (∀ s : String, hashURL s = hexEncode (sha256 (strBytes s))) ∧
    (∀ s : String, (hashURL s).length = 64) ∧
    (∀ s : String, ((hashURL s).data.all (fun c => hexDigits.contains c)) = true) ∧
    hashURL "https://example.com/a" ≠ hashURL "https://example.com/a/" ∧
    hashURL "https://example.com/?a=1&b=2" ≠ hashURL "https://example.com/?b=2&a=1" := by
  refine ⟨fun s => rfl, fun s => ?_, fun s => hexEncode_all_hex _, by decide, by decide⟩
  unfold hashURL
  rw [hexEncode_length, sha256_length]

/-! ## Claim C4: content-type allow-list -/

/-- C4 counterexample: the code matches allow-list entries by prefix, so the
type application/jsonx, which the claim places outside the allow-list, is
accepted, refuting acceptance if and only if the normalized type is under
text/* or equal to one of the listed application types. -/
theorem C4_counterexample_prefix_match :
    isTextContentType "application/jsonx" = true ∧
    isTextLikeSpec "application/jsonx" = false := by
  constructor <;> decide

/-- C4 amended: after stripping parameters at the first semicolon, trimming
and lower-casing, the type is accepted exactly when one of the allow-list
entries is a prefix of the result; application/octet-stream is rejected and
text/html with a charset parameter is accepted. -/
theorem C4_contentType_allowlist_by_prefix (ct : String) :
    (isTextContentType ct = true ↔
      (strStartsWith (strToLower (trimSpace (splitSemiFirst ct))) "text/" = true ∨
       strStartsWith (strToLower (trimSpace (splitSemiFirst ct))) "application/json" = true ∨
       strStartsWith (strToLower (trimSpace (splitSemiFirst ct))) "application/xml" = true ∨
       strStartsWith (strToLower (trimSpace (splitSemiFirst ct))) "application/javascript" = true ∨
       strStartsWith (strToLower (trimSpace (splitSemiFirst ct))) "application/x-yaml" = true ∨
       strStartsWith (strToLower (trimSpace (splitSemiFirst ct))) "application/yaml" = true)) ∧
    isTextContentType "application/octet-stream" = false ∧
    isTextContentType "text/html; charset=utf-8" = true := by
  refine ⟨?_, by decide, by decide⟩
  simp [isTextContentType, textTypes, List.any_cons, List.any_nil, Bool.or_eq_true]

/-! ## Claim C5: path traversal validation -/

/-- C5: every path containing dot-dot, in the raw input or after lexical
cleaning, is rejected by ValidatePath with a path-traversal error; the
validator is a pure function. -/
theorem C5_path_traversal_rejected (p : String)
    (h : strContains p ".." = true ∨ strContains (filepathClean p) ".." = true) :
    ValidatePath p = .error (.pathTraversal p) := by
  unfold ValidatePath
  rcases h with h | h
  · simp [h]
  · by_cases h2 : strContains p ".." = true
    · simp [h2]
    · simp only [Bool.not_eq_true] at h2
      simp [h2, h]

/-- C5 witness: the traversal path from the repository test suite is
rejected. -/
theorem C5_path_traversal_rejected_witness :
    strContains "docs/../../etc/passwd" ".." = true ∧
    ValidatePath "docs/../../etc/passwd" =
      .error (.pathTraversal "docs/../../etc/passwd") :=
  ⟨by decide, C5_path_traversal_rejected _ (Or.inl (by decide))⟩

/-! ## Claim C2: cache freshness validation -/

/-- C2: with neither validator stored the cache is reported valid with no
network request, whatever the network would have answered; with a validator
stored a conditional HEAD request is issued carrying If-None-Match and
If-Modified-Since for the stored values, and a transport failure or a 304
response confirms the cache while any other server response means stale. -/
theorem C2_freshness_validation (m : CacheMetadata) (o : HeadOutcome) :
    (m.etag = "" ∧ m.lastModified = "" → ValidateCache m o = (true, false)) ∧
    (m.etag ≠ "" ∨ m.lastModified ≠ "" →
      ValidateCache m o = (checkCacheFreshness o, true) ∧
      (m.etag ≠ "" → ("If-None-Match", m.etag) ∈ condRequestHeaders m) ∧
      (m.lastModified ≠ "" →
        ("If-Modified-Since", m.lastModified) ∈ condRequestHeaders m)) ∧
    (∀ msg, checkCacheFreshness (.transportFailure msg) = true) ∧
    checkCacheFreshness (.response 304) = true ∧
    (∀ st, st ≠ 304 → checkCacheFreshness (.response st) = false) := by
  refine ⟨?_, ?_, fun msg => rfl, rfl, fun st hst => ?_⟩
  · rintro ⟨h1, h2⟩
    simp [ValidateCache, h1, h2]
  · intro h
    have hcond : (m.etag == "" && m.lastModified == "") = false := by
      rcases h with h | h <;> simp [h]
    refine ⟨by simp [ValidateCache, hcond], fun h1 => ?_, fun h2 => ?_⟩
    · simp [condRequestHeaders, h1]
    · simp [condRequestHeaders, h2]
  · simp [checkCacheFreshness, hst]

/-- C2 witness: stored validator etag e1, server answers 304: the cache is
reported valid and a conditional request was issued carrying the etag. -/
theorem C2_freshness_validation_witness :
    ValidateCache ⟨"https://x/y", "t0", "h0", "e1", "", "text/plain", 5⟩ (.response 304) =
      (true, true) ∧
    ("If-None-Match", "e1") ∈
      condRequestHeaders ⟨"https://x/y", "t0", "h0", "e1", "", "text/plain", 5⟩ := by
  have h := (C2_freshness_validation
    ⟨"https://x/y", "t0", "h0", "e1", "", "text/plain", 5⟩ (.response 304)).2.1
    (Or.inl (by decide))
  exact ⟨h.1, h.2.1 (by decide)⟩

/-! ## Claim C9: metadata round trip -/

/-- C9: serializing a metadata entry and parsing it back reproduces every
field exactly, including the omitempty handling of etag and last_modified. -/
theorem C9_metadata_roundtrip (m : CacheMetadata) :
    LoadMetadata (some (SaveMetadata m)) = some m := by
  show metaFromJson (metaToJson m) = some m
  by_cases h1 : m.etag = "" <;> by_cases h2 : m.lastModified = "" <;>
    simp [metaToJson, metaFromJson, getStrField, getNumField, jsonLookup, h1, h2] <;>
    cases m <;> simp_all

/-! ## Claim C3: declared and actual size limits -/

/-- C3: for a 200 response of an allowed content type under limit L, a
declared Content-Length above L is rejected with a size error before any
body byte is read; regardless of the outcome at most L+1 body bytes are
ever read; and when the declared length passes but the body actually holds
at least L+1 bytes, exactly L+1 bytes are read and the fetch is rejected
with a size error after the read.  An absent Content-Length is the declared
value -1, which always passes the declared check. -/
theorem C3_size_limits (L declared : Int) (url now ct etag lm : String)
    (body : List Nat) (hL : 0 < L) (hct : isTextContentType ct = true) :
    (declared > L →
      downloadWithValidation L url now (.response 200 ct declared etag lm body) =
        (.error (.fileTooLarge declared L), 0)) ∧
    (∀ o : FetchOutcome, ((downloadWithValidation L url now o).2 : Int) ≤ L + 1) ∧
    (declared ≤ L → (body.length : Int) ≥ L + 1 →
      downloadWithValidation L url now (.response 200 ct declared etag lm body) =
        (.error (.fileTooLarge (L + 1) L), (L + 1).toNat)) := by
  have htn : ((L + 1).toNat : Int) = L + 1 := Int.toNat_of_nonneg (by omega)
  refine ⟨fun h => ?_, fun o => ?_, fun h1 h2 => ?_⟩
  · simp only [downloadWithValidation]
    rw [if_neg (by simp), if_neg (by simp [hct]), if_pos h]
  · cases o with
    | transportError msg => simp [downloadWithValidation]; omega
    | response st ct2 cl e2 l2 b2 =>
      simp only [downloadWithValidation]
      split_ifs <;> simp [List.length_take] <;> omega
  · simp only [downloadWithValidation]
    rw [if_neg (by simp), if_neg (by simp [hct]), if_neg (not_lt.mpr h1)]
    have hmin : (body.take (L + 1).toNat).length = (L + 1).toNat := by
      simp [List.length_take]
      omega
    rw [hmin, htn, if_pos (by omega)]

/-- C3 witness: limit 2, a declared length 3 is rejected with no byte read;
an absent declared length with a 3-byte body is rejected after reading
exactly 3 bytes. -/
theorem C3_size_limits_witness :
    (0 : Int) < 2 ∧ isTextContentType "text/plain" = true ∧
    downloadWithValidation 2 "https://e/x" "t0"
        (.response 200 "text/plain" 3 "" "" [10, 11, 12]) =
      (.error (.fileTooLarge 3 2), 0) ∧
    downloadWithValidation 2 "https://e/x" "t0"
        (.response 200 "text/plain" (-1) "" "" [10, 11, 12]) =
      (.error (.fileTooLarge 3 2), 3) := by
  refine ⟨by norm_num, by decide, ?_, ?_⟩
  · exact (C3_size_limits 2 3 "https://e/x" "t0" "text/plain" "" "" [10, 11, 12]
      (by norm_num) (by decide)).1 (by norm_num)
  · have h := (C3_size_limits 2 (-1) "https://e/x" "t0" "text/plain" "" "" [10, 11, 12]
      (by norm_num) (by decide)).2.2 (by norm_num) (by norm_num)
    simpa using h

/-! ## Claim C8: error distinguishability -/

/-- C8 counterexample: a transport failure and a 404 status response both
produce the single typed error ErrDownloadFailed, so their kinds — what a
caller can tell apart with errors.As — are equal, refuting the claim that
transport failures and bad statuses yield distinguishable error kinds. -/
theorem C8_counterexample_same_kind :
    (downloadWithValidation 100 "https://e.com/x" "t0"
        (.transportError "connection refused")).1 =
      .error (.downloadFailed "https://e.com/x" "connection refused") ∧
    (downloadWithValidation 100 "https://e.com/x" "t0"
        (.response 404 "text/plain" 5 "" "" [104])).1 =
      .error (.downloadFailed "https://e.com/x" "HTTP 404") ∧
    errKind (.downloadFailed "https://e.com/x" "connection refused") =
      errKind (.downloadFailed "https://e.com/x" "HTTP 404") := by
  exact ⟨rfl, rfl, rfl⟩

/-- C8 amended: the typed error families — invalid URL, invalid path,
download failure, cache, config, too-large, not-text, path-traversal — and
untyped fmt.Errorf errors are pairwise distinguishable kinds, and the kind
is preserved under fmt.Errorf %w wrapping as errors.As unwraps it; but a
transport failure and a non-200 status share the one kind downloadFailed:
they differ only as values, through the reason string, which for a status
error is the string HTTP followed by the status code. -/
theorem C8_error_kinds (L : Int) (url now msg ct e lm : String) (st : Nat)
    (body : List Nat) (hst : st ≠ 200) :
    (downloadWithValidation L url now (.transportError msg)).1 =
      .error (.downloadFailed url msg) ∧
    (downloadWithValidation L url now (.response st ct L e lm body)).1 =
      .error (.downloadFailed url ("HTTP " ++ toString st)) ∧
    errKind (.downloadFailed url msg) = errKind (.downloadFailed url ("HTTP " ++ toString st)) ∧
    (msg ≠ "HTTP " ++ toString st →
      RagError.downloadFailed url msg ≠ .downloadFailed url ("HTTP " ++ toString st)) ∧
    errKind (.wrap "download failed" (.downloadFailed url msg)) = .downloadFailed ∧
    [ErrKind.invalidURL, .invalidPath, .downloadFailed, .cacheError, .invalidConfig,
     .fileTooLarge, .notTextFile, .pathTraversal, .generic].Pairwise (· ≠ ·) := by
  refine ⟨rfl, ?_, rfl, ?_, rfl, by decide⟩
  · simp only [downloadWithValidation]
    rw [if_pos (by simp [hst])]
  · intro hne heq
    cases heq
    exact hne rfl

/-- C8 witness: the 404 branch at concrete inputs, and the concrete
distinctness of the transport reason from the status reason. -/
theorem C8_error_kinds_witness :
    (404 : Nat) ≠ 200 ∧
    (downloadWithValidation 100 "https://e.com/y" "t0"
        (.response 404 "text/plain" 100 "" "" [])).1 =
      .error (.downloadFailed "https://e.com/y" ("HTTP " ++ toString (404 : Nat))) ∧
    RagError.downloadFailed "https://e.com/y" "connection refused" ≠
      .downloadFailed "https://e.com/y" ("HTTP " ++ toString (404 : Nat)) := by
  have h := C8_error_kinds 100 "https://e.com/y" "t0" "connection refused"
    "text/plain" "" "" 404 [] (by decide)
  exact ⟨by decide, h.2.1, h.2.2.2.1 (by decide)⟩

/-! ## Claim C7: content before metadata, metadata failure tolerated -/

/-- The cache-validation step issues at most a HEAD request, never a file
removal. -/
theorem removeFile_not_in_validationEvents (env : DownloadEnv) (p : String) :
    Event.removeFile p ∉ validationEvents env := by
  unfold validationEvents
  cases henv : env.storedMeta with
  | none => split_ifs <;> simp
  | some m => split_ifs <;> simp

/-- C7: whenever a download reaches the persist step (fetch validated,
cache directory created, content written), the content file is written
before the metadata file, the call returns the content path whether or not
the metadata write succeeds — writeMetaOk is not a hypothesis — and no
event ever removes a file. -/
theorem C7_content_before_metadata (env : DownloadEnv) (url : String)
    (content : List Nat) (meta : CacheMetadata)
    (hurl : env.urlOk = true)
    (hcache : cacheIsValid env = false)
    (hfetch : (downloadWithValidation env.maxSize url env.now env.fetchOutcome).1 =
      .ok (content, meta))
    (hmk : env.mkdirOk = true) (hwd : env.writeDocOk = true) :
    Download env url =
      (.ok (GetCachedDocumentPath env.cacheDir url),
       validationEvents env ++
         [.getRequest url,
          .mkdirAll (filepathDir (GetCachedDocumentPath env.cacheDir url)),
          .writeDoc (GetCachedDocumentPath env.cacheDir url) content,
          .writeMeta (GetCachedMetadataPath env.cacheDir url) meta]) ∧
    (∀ p, Event.removeFile p ∉ (Download env url).2) := by
  have heq : Download env url =
      (.ok (GetCachedDocumentPath env.cacheDir url),
       validationEvents env ++
         [.getRequest url,
          .mkdirAll (filepathDir (GetCachedDocumentPath env.cacheDir url)),
          .writeDoc (GetCachedDocumentPath env.cacheDir url) content,
          .writeMeta (GetCachedMetadataPath env.cacheDir url) meta]) := by
    simp [Download, hurl, hcache, hfetch, hmk, hwd]
  refine ⟨heq, fun p => ?_⟩
  rw [heq]
  simp [List.mem_append, removeFile_not_in_validationEvents]

/-- C7 witness: a concrete environment with writeMetaOk set to false — the
metadata write fails — still returns the content path, with the content
write preceding the metadata attempt. -/
theorem C7_content_before_metadata_witness :
    (DownloadEnv.mk "/cache" false 100 true false none (.response 500)
        (.response 200 "text/plain" 2 "" "" [104, 105]) "t0" true true false).writeMetaOk
      = false ∧
    Download
      (DownloadEnv.mk "/cache" false 100 true false none (.response 500)
        (.response 200 "text/plain" 2 "" "" [104, 105]) "t0" true true false)
      "https://e.com/a.txt" =
      (.ok (GetCachedDocumentPath "/cache" "https://e.com/a.txt"),
       validationEvents
         (DownloadEnv.mk "/cache" false 100 true false none (.response 500)
           (.response 200 "text/plain" 2 "" "" [104, 105]) "t0" true true false) ++
         [.getRequest "https://e.com/a.txt",
          .mkdirAll (filepathDir (GetCachedDocumentPath "/cache" "https://e.com/a.txt")),
          .writeDoc (GetCachedDocumentPath "/cache" "https://e.com/a.txt") [104, 105],
          .writeMeta (GetCachedMetadataPath "/cache" "https://e.com/a.txt")
            ⟨"https://e.com/a.txt", "t0", ComputeContentHash [104, 105], "", "",
             "text/plain", 2⟩]) :=
  ⟨rfl,
   (C7_content_before_metadata
     (DownloadEnv.mk "/cache" false 100 true false none (.response 500)
       (.response 200 "text/plain" 2 "" "" [104, 105]) "t0" true true false)
     "https://e.com/a.txt" [104, 105]
     ⟨"https://e.com/a.txt", "t0", ComputeContentHash [104, 105], "", "", "text/plain", 2⟩
     rfl rfl rfl rfl rfl).1⟩

/-! ## Claim C10: the returned path is the deterministic cache path -/

/-- C10: every successful Download returns exactly the deterministic cached
document path composed from the cache directory and the exact URL string,
on the cache-hit path and on the fresh-download path alike; hence two
successful downloads against the same cache directory return the same
path whatever the network did. -/
theorem C10_download_path_deterministic :
    (∀ (env : DownloadEnv) (url p : String),
      (Download env url).1 = .ok p → p = GetCachedDocumentPath env.cacheDir url) ∧
    (∀ (env env2 : DownloadEnv) (url p p2 : String), env.cacheDir = env2.cacheDir →
      (Download env url).1 = .ok p → (Download env2 url).1 = .ok p2 → p = p2) := by
  have main : ∀ (env : DownloadEnv) (url p : String),
      (Download env url).1 = .ok p → p = GetCachedDocumentPath env.cacheDir url := by
    intro env url p h
    by_cases hu : env.urlOk = true
    · by_cases hc : cacheIsValid env = true
      · simp [Download, hu, hc] at h
        exact h.symm
      · rw [Bool.not_eq_true] at hc
        rcases hfetch : (downloadWithValidation env.maxSize url env.now env.fetchOutcome).1
          with e | cm
        · simp [Download, hu, hc, hfetch] at h
        · obtain ⟨content, meta⟩ := cm
          by_cases hm : env.mkdirOk = true
          · by_cases hw : env.writeDocOk = true
            · simp [Download, hu, hc, hfetch, hm, hw] at h
              exact h.symm
            · rw [Bool.not_eq_true] at hw
              simp [Download, hu, hc, hfetch, hm, hw] at h
          · rw [Bool.not_eq_true] at hm
            simp [Download, hu, hc, hfetch, hm] at h
    · rw [Bool.not_eq_true] at hu
      simp [Download, hu] at h
  refine ⟨main, fun env env2 url p p2 hcd h h2 => ?_⟩
  rw [main env url p h, main env2 url p2 h2, hcd]

/-- C10 witness: a cache-hit environment returns exactly the composed
cached-document path. -/
theorem C10_download_path_deterministic_witness :
    (Download
      (DownloadEnv.mk "/cache" false 100 true true
        (some ⟨"https://e.com/a.txt", "t0", "h0", "", "", "text/plain", 5⟩)
        (.response 500) (.transportError "net down") "t0" true true true)
      "https://e.com/a.txt").1 =
      .ok (GetCachedDocumentPath "/cache" "https://e.com/a.txt") ∧
    GetCachedDocumentPath "/cache" "https://e.com/a.txt" =
      GetCachedDocumentPath
        (DownloadEnv.mk "/cache" false 100 true true
          (some ⟨"https://e.com/a.txt", "t0", "h0", "", "", "text/plain", 5⟩)
          (.response 500) (.transportError "net down") "t0" true true true).cacheDir
        "https://e.com/a.txt" :=
  ⟨rfl,
   C10_download_path_deterministic.1
     (DownloadEnv.mk "/cache" false 100 true true
       (some ⟨"https://e.com/a.txt", "t0", "h0", "", "", "text/plain", 5⟩)
       (.response 500) (.transportError "net down") "t0" true true true)
     "https://e.com/a.txt" (GetCachedDocumentPath "/cache" "https://e.com/a.txt") rfl⟩

/-! ## Claim C6: scanner and hidden entries -/

/-- A child path, one slash and a name longer, never equals the root path. -/
theorem childPath_ne_root (root nm : String) : (root ++ "/" ++ nm) ≠ root := by
  intro h
  have hlen := congrArg String.length h
  simp only [String.length_append] at hlen
  have hone : ("/" : String).length = 1 := rfl
  omega

mutual

/-- Every path a walk returns is the path of a file whose name is not
hidden: the walk result is contained in visibleFiles. -/
theorem walkNode_visible (r : Bool) (root : String) :
    ∀ (path : String) (node : FsNode) (p : String),
      p ∈ walkNode r root path node → p ∈ visibleFiles path node
  | path, .file name, p => fun h => by
      simp only [walkNode] at h
      simp only [visibleFiles]
      split_ifs at h with h1 h2
      · simp at h
      · simp only [if_neg h1]
        exact h
      · simp at h
  | path, .dir nm children, p => fun h => by
      simp only [walkNode] at h
      simp only [visibleFiles]
      by_cases hskip : (path != root && !r) = true
      · rw [if_pos hskip] at h
        simp at h
      · rw [if_neg hskip] at h
        exact walkForest_visible r root path children p h

/-- Forest version of walkNode_visible. -/
theorem walkForest_visible (r : Bool) (root : String) :
    ∀ (path : String) (f : FsForest) (p : String),
      p ∈ walkForest r root path f → p ∈ visibleFilesForest path f
  | path, .nil, p => fun h => by simp [walkForest] at h
  | path, .cons c cs, p => fun h => by
      simp only [walkForest] at h
      simp only [visibleFilesForest]
      rcases List.mem_append.1 h with h | h
      · exact List.mem_append.2
          (Or.inl (walkNode_visible r root (path ++ "/" ++ nodeName c) c p h))
      · exact List.mem_append.2 (Or.inr (walkForest_visible r root path cs p h))

end

/-- A non-recursive walk over the children of the root keeps exactly the
files directly under the root: subdirectories are never entered. -/
theorem walkForest_nonrecursive (root : String) : ∀ (children : FsForest),
    walkForest false root root children = rootOnlyFiles root children
  | .nil => rfl
  | .cons (.file nm) cs => by
      simp only [walkForest, walkNode, nodeName, rootOnlyFiles]
      rw [walkForest_nonrecursive root cs]
  | .cons (.dir nm ch) cs => by
      simp only [walkForest, walkNode, nodeName, rootOnlyFiles]
      rw [if_pos (by simp [childPath_ne_root root nm]),
        walkForest_nonrecursive root cs]
      simp

/-- C6 counterexample: with a recursive scan, a directory whose name starts
with the hidden marker is descended into — the text file inside the hidden
directory is returned — refuting that no hidden directory is ever entered. -/
theorem C6_counterexample_hidden_dir_descended :
    walkNode true "/r" "/r"
      (.dir "r" (.cons (.dir ".hidden" (.cons (.file "b.txt") .nil)) .nil)) =
      ["/r/.hidden/b.txt"] ∧
    strStartsWith ".hidden" "." = true := by
  constructor <;> decide

/-- C6 amended: hidden files — entries whose own name starts with the
hidden marker — are never returned; with recursive scanning off only the
files directly under the root are kept and no subdirectory, hidden or not,
is entered, so the scenario root holding a.txt, sub/b.txt and .c.txt yields
exactly the absolute path of a.txt; but hidden directories are not skipped:
a recursive scan descends into them. -/
theorem C6_scanner_hidden_files_only :
    (∀ (r : Bool) (root path p : String) (node : FsNode),
      p ∈ walkNode r root path node → p ∈ visibleFiles path node) ∧
    (∀ (root name : String) (children : FsForest),
      walkNode false root root (.dir name children) = rootOnlyFiles root children) ∧
    ScanDirectory "/root" "/root"
      (.dir "root" (.cons (.file ".c.txt") (.cons (.file "a.txt")
        (.cons (.dir "sub" (.cons (.file "b.txt") .nil)) .nil)))) false =
      .ok ["/root/a.txt"] ∧
    walkNode true "/a" "/a"
      (.dir "a" (.cons (.dir ".git" (.cons (.file "cfg.txt") .nil)) .nil)) =
      ["/a/.git/cfg.txt"] := by
  refine ⟨fun r root path p node => walkNode_visible r root path node p,
    fun root name children => ?_, rfl, by decide⟩
  simp only [walkNode]
  rw [if_neg (by simp)]
  exact walkForest_nonrecursive root children

/-- C6 witness: the scenario file a.txt is both returned by the walk and a
visible file of the tree. -/
theorem C6_scanner_hidden_files_only_witness :
    "/root/a.txt" ∈
      walkNode false "/root" "/root"
        (.dir "root" (.cons (.file ".c.txt") (.cons (.file "a.txt")
          (.cons (.dir "sub" (.cons (.file "b.txt") .nil)) .nil)))) ∧
    "/root/a.txt" ∈
      visibleFiles "/root"
        (.dir "root" (.cons (.file ".c.txt") (.cons (.file "a.txt")
          (.cons (.dir "sub" (.cons (.file "b.txt") .nil)) .nil)))) :=
  ⟨by decide,
   C6_scanner_hidden_files_only.1 false "/root" "/root" "/root/a.txt"
     (.dir "root" (.cons (.file ".c.txt") (.cons (.file "a.txt")
       (.cons (.dir "sub" (.cons (.file "b.txt") .nil)) .nil))))
     (by decide)⟩
